import Mathlib

/-!
Verification of the NutriPlan meal-plan backend (src/backend/server.py).

The server manipulates loosely-typed JSON documents (Python dicts / lists /
strings / numbers / booleans / None), so the embedding works over a JSON-like
value type `JsonVal` together with models of the Python operations the code
performs (`d[k]`, `d.get(k, default)`, `k in d`, `len`, iteration, truthiness,
item assignment), each returning `Except PyErr _` where Python would raise.
Machine floats never influence the verified control flow, so JSON numbers are
modelled as integers.
-/

namespace NutriPlan

/-- JSON-like document values, the data manipulated by the server. -/
inductive JsonVal where
  | null
  | bool (b : Bool)
  | num (n : Int)
  | str (s : String)
  | arr (xs : List JsonVal)
  | obj (fields : List (String × JsonVal))
deriving Repr

/-- Python exceptions that the modelled operations can raise. -/
inductive PyErr where
  | keyError
  | typeError
  | attributeError
  | valueError
deriving DecidableEq, Repr

mutual

/-- Structural equality on `JsonVal` (Python `==` on parsed JSON data). -/
def JsonVal.beq : JsonVal → JsonVal → Bool
  | .null, .null => true
  | .bool a, .bool b => a = b
  | .num a, .num b => a = b
  | .str a, .str b => a = b
  | .arr a, .arr b => JsonVal.beqList a b
  | .obj a, .obj b => JsonVal.beqFields a b
  | _, _ => false

def JsonVal.beqList : List JsonVal → List JsonVal → Bool
  | [], [] => true
  | x :: xs, y :: ys => JsonVal.beq x y && JsonVal.beqList xs ys
  | _, _ => false

def JsonVal.beqFields : List (String × JsonVal) → List (String × JsonVal) → Bool
  | [], [] => true
  | (k, v) :: xs, (k', v') :: ys => k = k' && JsonVal.beq v v' && JsonVal.beqFields xs ys
  | _, _ => false

end

mutual

theorem JsonVal.beq_refl : (v : JsonVal) → JsonVal.beq v v = true
  | .null => rfl
  | .bool b => by simp [JsonVal.beq]
  | .num n => by simp [JsonVal.beq]
  | .str s => by simp [JsonVal.beq]
  | .arr xs => by simpa [JsonVal.beq] using JsonVal.beqList_refl xs
  | .obj fs => by simpa [JsonVal.beq] using JsonVal.beqFields_refl fs

theorem JsonVal.beqList_refl : (xs : List JsonVal) → JsonVal.beqList xs xs = true
  | [] => rfl
  | x :: xs => by
      simp only [JsonVal.beqList, Bool.and_eq_true]
      exact ⟨JsonVal.beq_refl x, JsonVal.beqList_refl xs⟩

theorem JsonVal.beqFields_refl :
    (fs : List (String × JsonVal)) → JsonVal.beqFields fs fs = true
  | [] => rfl
  | (k, v) :: fs => by
      simp only [JsonVal.beqFields, Bool.and_eq_true, decide_eq_true_eq]
      exact ⟨⟨trivial, JsonVal.beq_refl v⟩, JsonVal.beqFields_refl fs⟩

end

mutual

theorem JsonVal.eq_of_beq : {a b : JsonVal} → JsonVal.beq a b = true → a = b
  | .null, .null, _ => rfl
  | .bool a, .bool b, h => by simpa [JsonVal.beq] using h
  | .num a, .num b, h => by simpa [JsonVal.beq] using h
  | .str a, .str b, h => by simpa [JsonVal.beq] using h
  | .arr a, .arr b, h => by
      have := JsonVal.eq_of_beqList (a := a) (b := b) (by simpa [JsonVal.beq] using h)
      simp [this]
  | .obj a, .obj b, h => by
      have := JsonVal.eq_of_beqFields (a := a) (b := b) (by simpa [JsonVal.beq] using h)
      simp [this]

theorem JsonVal.eq_of_beqList : {a b : List JsonVal} → JsonVal.beqList a b = true → a = b
  | [], [], _ => rfl
  | x :: xs, y :: ys, h => by
      simp only [JsonVal.beqList, Bool.and_eq_true] at h
      have h1 := JsonVal.eq_of_beq h.1
      have h2 := JsonVal.eq_of_beqList h.2
      simp [h1, h2]

theorem JsonVal.eq_of_beqFields :
    {a b : List (String × JsonVal)} → JsonVal.beqFields a b = true → a = b
  | [], [], _ => rfl
  | (k, v) :: xs, (k', v') :: ys, h => by
      simp only [JsonVal.beqFields, Bool.and_eq_true, decide_eq_true_eq] at h
      have h1 := h.1.1
      have h2 := JsonVal.eq_of_beq h.1.2
      have h3 := JsonVal.eq_of_beqFields h.2
      simp [h1, h2, h3]

end

instance : DecidableEq JsonVal := fun a b =>
  if h : JsonVal.beq a b = true then
    .isTrue (JsonVal.eq_of_beq h)
  else
    .isFalse (fun he => h (he ▸ JsonVal.beq_refl a))

instance {ε α} [DecidableEq ε] [DecidableEq α] : DecidableEq (Except ε α) := fun a b =>
  match a, b with
  | .ok x, .ok y =>
      if h : x = y then .isTrue (by rw [h]) else .isFalse (by simp [h])
  | .error x, .error y =>
      if h : x = y then .isTrue (by rw [h]) else .isFalse (by simp [h])
  | .ok _, .error _ => .isFalse (by simp)
  | .error _, .ok _ => .isFalse (by simp)

/-- First binding of key `k` in a Python dict modelled as a field list. -/
def dictGet? (fields : List (String × JsonVal)) (k : String) : Option JsonVal :=
  (fields.find? (fun p => p.1 = k)).map (·.2)

/-- Python `d[k] = v` on a dict: overwrite the binding of `k`, or append it. -/
def dictSet : List (String × JsonVal) → String → JsonVal → List (String × JsonVal)
  | [], k, v => [(k, v)]
  | (k', v') :: rest, k, v =>
      if k' = k then (k, v) :: rest else (k', v') :: dictSet rest k v

/-- Python subscription `c[k]` with a string key: dict lookup
(`KeyError` when absent), `TypeError` on any non-dict. -/
def pyGetItem (c : JsonVal) (k : String) : Except PyErr JsonVal :=
  match c with
  | .obj fields =>
      match dictGet? fields k with
      | some v => .ok v
      | none => .error .keyError
  | _ => .error .typeError

/-- Python `c.get(k, default)`: only dicts have `.get`
(`AttributeError` otherwise). -/
def pyGet (c : JsonVal) (k : String) (default : JsonVal) : Except PyErr JsonVal :=
  match c with
  | .obj fields => .ok ((dictGet? fields k).getD default)
  | _ => .error .attributeError

/-- Python `c[k] = v` with a string key: dict item assignment,
`TypeError` on any non-dict. -/
def pySetItem (c : JsonVal) (k : String) (v : JsonVal) : Except PyErr JsonVal :=
  match c with
  | .obj fields => .ok (.obj (dictSet fields k v))
  | _ => .error .typeError

/-- Python `k in c` for a string `k`: key membership for dicts, element
membership for lists, substring test for strings, `TypeError` otherwise. -/
def pyContainsKey (k : String) (c : JsonVal) : Except PyErr Bool :=
  match c with
  | .obj fields => .ok (fields.any (fun p => p.1 = k))
  | .arr xs => .ok (xs.any (fun x => x = .str k))
  | .str s => .ok (decide (k.toList <:+: s.toList))
  | _ => .error .typeError

/-- Python `len(c)`: `TypeError` on unsized values. -/
def pyLen (c : JsonVal) : Except PyErr Nat :=
  match c with
  | .str s => .ok s.length
  | .arr xs => .ok xs.length
  | .obj fields => .ok fields.length
  | _ => .error .typeError

/-- Python iteration `for x in c`: list elements, string characters
(one-character strings), dict keys; `TypeError` otherwise. -/
def pyIter (c : JsonVal) : Except PyErr (List JsonVal) :=
  match c with
  | .arr xs => .ok xs
  | .str s => .ok (s.toList.map (fun ch => .str (String.mk [ch])))
  | .obj fields => .ok (fields.map (fun p => .str p.1))
  | _ => .error .typeError

/-- Python truthiness of a JSON value. -/
def pyTruthy : JsonVal → Bool
  | .null => false
  | .bool b => b
  | .num n => n ≠ 0
  | .str s => s ≠ ""
  | .arr xs => !xs.isEmpty
  | .obj fields => !fields.isEmpty

/-- Python `==` between a JSON value and an `int` (`True == 1`, `False == 0`;
non-numeric values never compare equal to an int). -/
def pyEqInt : JsonVal → Int → Bool
  | .num n, d => n = d
  | .bool b, d => (if b then (1 : Int) else 0) = d
  | _, _ => false

/-! ## Plan generation (`generate_meal_plan_with_ai`, server.py 115-295)

The external LLM call and Python's `json.loads` on the cleaned response text
are outside the repository; their combined effect on the code under
verification is fully described by the parse outcome: either `json.loads`
raised a `JSONDecodeError`, or it produced a JSON value.  The profile argument
feeds only the prompt string sent to the external model, which influences the
code below solely through that outcome. -/

/-- Outcome of `json.loads` on the cleaned response text. -/
inductive ParseOutcome where
  | decodeError
  | parsed (v : JsonVal)
deriving DecidableEq, Repr

/-- One day of the fallback plan (server.py 241-288): the dict-comprehension
body for index `i`, whose day number is `i + 1`. -/
def fallbackDay (n : Nat) : JsonVal :=
  .obj [
    ("day", .num n),
    ("breakfast", .obj [
      ("name", .str ("Day " ++ toString n ++ " Breakfast")),
      ("recipe", .obj [
        ("ingredients", .arr [.str "1 cup oats", .str "1 cup milk", .str "1 banana"]),
        ("instructions", .arr [.str "Cook oats with milk", .str "Top with sliced banana"])]),
      ("nutrition", .obj [
        ("calories", .num 350), ("protein", .num 12), ("carbs", .num 60),
        ("fat", .num 8), ("fiber", .num 6), ("sugar", .num 15)])]),
    ("lunch", .obj [
      ("name", .str ("Day " ++ toString n ++ " Lunch")),
      ("recipe", .obj [
        ("ingredients", .arr [.str "150g chicken", .str "2 cups salad", .str "1 tbsp dressing"]),
        ("instructions", .arr [.str "Grill chicken", .str "Prepare salad", .str "Add dressing"])]),
      ("nutrition", .obj [
        ("calories", .num 400), ("protein", .num 35), ("carbs", .num 10),
        ("fat", .num 20), ("fiber", .num 4), ("sugar", .num 5)])]),
    ("dinner", .obj [
      ("name", .str ("Day " ++ toString n ++ " Dinner")),
      ("recipe", .obj [
        ("ingredients", .arr [.str "1 cup rice", .str "100g vegetables", .str "1 tbsp oil"]),
        ("instructions", .arr [.str "Cook rice", .str "Stir fry vegetables", .str "Combine"])]),
      ("nutrition", .obj [
        ("calories", .num 450), ("protein", .num 15), ("carbs", .num 70),
        ("fat", .num 12), ("fiber", .num 5), ("sugar", .num 8)])])]

/-- The fallback meal plan (server.py 239-291):
`{"days": [<fallbackDay (i+1)> for i in range(7)]}`. -/
def fallbackMealPlan : JsonVal :=
  .obj [("days", .arr ((List.range 7).map (fun i => fallbackDay (i + 1))))]

/-- The inner `try` block over the parsed value (server.py 226-232):
`if "days" not in meal_plan_data: raise ValueError(...)`;
`if len(meal_plan_data["days"]) != 7: raise ValueError(...)`; else return it.
A raised `ValueError` is not a `json.JSONDecodeError`, so it escapes the inner
handler. -/
def validateParsed (data : JsonVal) : Except PyErr JsonVal := do
  let hasDays ← pyContainsKey "days" data
  if !hasDays then
    .error .valueError
  else do
    let days ← pyGetItem data "days"
    let n ← pyLen days
    if n ≠ 7 then .error .valueError else .ok data

/-- Result of `generate_meal_plan_with_ai` as seen by its caller: a returned
plan value, or an `HTTPException` with a status code. -/
inductive GenResult where
  | ok (plan : JsonVal)
  | httpError (code : Nat)
deriving DecidableEq, Repr

/-- `generate_meal_plan_with_ai` (server.py 115-295) after the external call:
on `json.JSONDecodeError` the inner handler returns the fallback plan
(server.py 234-291); any other exception — in particular the `ValueError`s of
structural validation — reaches the outer `except Exception`, which raises
`HTTPException(500)` (server.py 293-295).  `profile` only shapes the prompt
string for the external model. -/
def generate_meal_plan_with_ai (profile : JsonVal) (outcome : ParseOutcome) : GenResult :=
  match profile, outcome with
  | _, .decodeError => .ok fallbackMealPlan
  | _, .parsed data =>
      match validateParsed data with
      | .ok plan => .ok plan
      | .error _ => .httpError 500

/-! ## Persistence and the plan endpoints (server.py 363-472) -/

/-- A Python `for` loop that applies `f` to each element in order and collects
the results, stopping at the first raised exception. -/
def mapME {α β : Type} (f : α → Except PyErr β) : List α → Except PyErr (List β)
  | [] => .ok []
  | x :: xs => do
      let y ← f x
      let ys ← mapME f xs
      .ok (y :: ys)

/-- The injection body for one meal slot (server.py 378-380):
`if meal_type in day: day[meal_type]["dining_out"] = False`. -/
def injectMeal (day : JsonVal) (mt : String) : Except PyErr JsonVal := do
  let present ← pyContainsKey mt day
  if present then do
    let meal ← pyGetItem day mt
    let meal' ← pySetItem meal "dining_out" (.bool false)
    pySetItem day mt meal'
  else
    .ok day

/-- The inner injection loop over `["breakfast", "lunch", "dinner"]`
(server.py 378). -/
def injectDay (day : JsonVal) : Except PyErr JsonVal := do
  let d1 ← injectMeal day "breakfast"
  let d2 ← injectMeal d1 "lunch"
  injectMeal d2 "dinner"

/-- Caller-side dining_out injection (server.py 377-380):
`for day in meal_plan_data.get("days", []): ...`.  The loop mutates the day
dicts inside the list bound to `"days"` in place.  When `"days"` is absent the
default `[]` is iterated and nothing changes; iterating a string or dict value
yields fresh one-character strings or key strings, so the original value is
unchanged when the loop body raises nothing; non-iterable values raise
`TypeError`. -/
def inject_dining_out (meal_plan_data : JsonVal) : Except PyErr JsonVal :=
  match meal_plan_data with
  | .obj fields =>
      match dictGet? fields "days" with
      | none => .ok (.obj fields)
      | some (.arr ds) => do
          let ds' ← mapME injectDay ds
          .ok (.obj (dictSet fields "days" (.arr ds')))
      | some (.str s) => do
          let _ ← mapME injectDay (s.toList.map (fun ch => JsonVal.str (String.mk [ch])))
          .ok (.obj fields)
      | some (.obj inner) => do
          let _ ← mapME injectDay (inner.map (fun p => JsonVal.str p.1))
          .ok (.obj fields)
      | some _ => .error .typeError
  | _ => .error .attributeError

/-- A stored plan document (server.py 384-389). -/
structure PlanDoc where
  meal_plan_id : String
  user_id : String
  meal_plan : JsonVal
  created_at : String
deriving DecidableEq, Repr

/-- The `meal_plans` collection in natural (insertion) order. -/
abbrev Store := List PlanDoc

/-- `db.meal_plans.find_one({"meal_plan_id": pid, "user_id": uid})`
(server.py 421-424, 449-452): the first document matching both keys. -/
def findPlanForUser (store : Store) (pid uid : String) : Option PlanDoc :=
  store.find? (fun d => d.meal_plan_id = pid && d.user_id = uid)

/-- Result of the `generate_meal_plan` endpoint (server.py 363-397) as far as
storage is concerned. -/
inductive GenerateEndpointResult where
  | badRequest
  | httpError (code : Nat)
  | persisted (doc : PlanDoc)
deriving DecidableEq, Repr

/-- `generate_meal_plan` endpoint (server.py 363-397): reject with 400 when the
user's profile is falsy; otherwise generate, inject `dining_out = False` into
every meal, and persist a document with a fresh id and timestamp (both produced
externally, hence parameters).  An exception during injection escapes the
handler (HTTP 500) and nothing is persisted. -/
def generate_meal_plan (profileVal : JsonVal) (outcome : ParseOutcome)
    (pid uid ts : String) : GenerateEndpointResult :=
  if !pyTruthy profileVal then .badRequest
  else
    match generate_meal_plan_with_ai profileVal outcome with
    | .httpError c => .httpError c
    | .ok data =>
        match inject_dining_out data with
        | .error _ => .httpError 500
        | .ok data' => .persisted ⟨pid, uid, data', ts⟩

/-- The `for day in days` loop of `update_meal_dining_status`
(server.py 431-435): on the first day whose `day["day"]` equals the requested
day and which contains the meal-type key, overwrite that meal's `dining_out`
and `break`; otherwise keep scanning. -/
def updateDaysList (days : List JsonVal) (d : Int) (mt : String) (v : Bool) :
    Except PyErr (List JsonVal) :=
  match days with
  | [] => .ok []
  | day :: rest => do
      let dn ← pyGetItem day "day"
      if pyEqInt dn d then do
        let hit ← pyContainsKey mt day
        if hit then do
          let meal ← pyGetItem day mt
          let meal' ← pySetItem meal "dining_out" (.bool v)
          let day' ← pySetItem day mt meal'
          .ok (day' :: rest)
        else do
          let rest' ← updateDaysList rest d mt v
          .ok (day :: rest')
      else do
        let rest' ← updateDaysList rest d mt v
        .ok (day :: rest')

/-- `$set {"meal_plan.days": days}` applied to one document.  On the reachable
paths `meal_plan` is a dict (otherwise the endpoint raised before updating). -/
def setDocDays (doc : PlanDoc) (days : JsonVal) : PlanDoc :=
  { doc with meal_plan :=
      match doc.meal_plan with
      | .obj fields => .obj (dictSet fields "days" days)
      | other => other }

/-- `db.meal_plans.update_one({"meal_plan_id": pid}, {"$set": {"meal_plan.days": days}})`
(server.py 438-441): the filter is by plan id only, and the first matching
document is updated. -/
def storeSetDays : Store → String → JsonVal → Store
  | [], _, _ => []
  | doc :: rest, pid, days =>
      if doc.meal_plan_id = pid then setDocDays doc days :: rest
      else doc :: storeSetDays rest pid days

/-- Result of the `update_meal_dining_status` endpoint. -/
inductive UpdateResult where
  | notFound
  | internalError
  | success (newStore : Store)
deriving DecidableEq, Repr

/-- `update_meal_dining_status` endpoint (server.py 417-443): look up the plan
scoped by owning user (404 when absent), run the update loop over
`meal_plan["meal_plan"]["days"]`, then write the `days` value back.  When the
`days` value is a non-empty string or dict, the loop iterates one-character
strings or key strings, whose `["day"]` subscription raises `TypeError`
(HTTP 500); empty iterables skip the loop and write the value back unchanged;
non-iterable values raise at the `for` statement. -/
def update_meal_dining_status (store : Store) (pid uid : String)
    (d : Int) (mt : String) (v : Bool) : UpdateResult :=
  match findPlanForUser store pid uid with
  | none => .notFound
  | some doc =>
      match pyGetItem doc.meal_plan "days" with
      | .error _ => .internalError
      | .ok (.arr days) =>
          match updateDaysList days d mt v with
          | .error _ => .internalError
          | .ok days' => .success (storeSetDays store pid (.arr days'))
      | .ok (.str s) =>
          if s.isEmpty then .success (storeSetDays store pid (.str s))
          else .internalError
      | .ok (.obj fields) =>
          if fields.isEmpty then .success (storeSetDays store pid (.obj fields))
          else .internalError
      | .ok _ => .internalError

/-- One meal slot of the grocery loop (server.py 461-467):
`if meal_type in day:` read the meal, skip it when `meal.get("dining_out",
False)` is truthy, otherwise extend with
`meal.get("recipe", {}).get("ingredients", [])`. -/
def mealContribution (day : JsonVal) (mt : String) : Except PyErr (List JsonVal) := do
  let hit ← pyContainsKey mt day
  if !hit then .ok []
  else do
    let meal ← pyGetItem day mt
    let dOut ← pyGet meal "dining_out" (.bool false)
    if pyTruthy dOut then .ok []
    else do
      let recipe ← pyGet meal "recipe" (.obj [])
      let ing ← pyGet recipe "ingredients" (.arr [])
      pyIter ing

/-- One day of the grocery loop: the fixed slot order breakfast, lunch, dinner
(server.py 461). -/
def dayContribution (day : JsonVal) : Except PyErr (List JsonVal) := do
  let b ← mealContribution day "breakfast"
  let l ← mealContribution day "lunch"
  let dns ← mealContribution day "dinner"
  .ok (b ++ l ++ dns)

/-- Result of the `get_grocery_list` endpoint. -/
inductive GroceryResult where
  | notFound
  | internalError
  | ok (ingredients : List JsonVal)
deriving DecidableEq, Repr

/-- `get_grocery_list` endpoint (server.py 445-472): look up the plan scoped by
owning user (404 when absent), then walk `meal_plan["meal_plan"]["days"]` in
order, appending each non-dining-out meal's ingredient list. -/
def get_grocery_list (store : Store) (pid uid : String) : GroceryResult :=
  match findPlanForUser store pid uid with
  | none => .notFound
  | some doc =>
      match pyGetItem doc.meal_plan "days" with
      | .error _ => .internalError
      | .ok daysVal =>
          match pyIter daysVal with
          | .error _ => .internalError
          | .ok days =>
              match mapME dayContribution days with
              | .error _ => .internalError
              | .ok contribs => .ok contribs.flatten

/-! ## The §3 data model

Typed counterparts of well-formed plan documents, used to state the invariants
("exactly 7 days numbered 1..7, three meal slots per day").  `toJson` maps them
onto the exact document shapes the server produces and stores. -/

structure Nutrition where
  calories : Int
  protein : Int
  carbs : Int
  fat : Int
  fiber : Int
  sugar : Int
deriving DecidableEq, Repr

structure Recipe where
  ingredients : List String
  instructions : List String
deriving DecidableEq, Repr

structure Meal where
  name : String
  recipe : Recipe
  nutrition : Nutrition
  dining_out : Bool
deriving DecidableEq, Repr

structure PlanDay where
  dayNum : Int
  breakfast : Meal
  lunch : Meal
  dinner : Meal
deriving DecidableEq, Repr

def Nutrition.toJson (n : Nutrition) : JsonVal :=
  .obj [("calories", .num n.calories), ("protein", .num n.protein),
        ("carbs", .num n.carbs), ("fat", .num n.fat),
        ("fiber", .num n.fiber), ("sugar", .num n.sugar)]

def Recipe.toJson (r : Recipe) : JsonVal :=
  .obj [("ingredients", .arr (r.ingredients.map .str)),
        ("instructions", .arr (r.instructions.map .str))]

def Meal.toJson (m : Meal) : JsonVal :=
  .obj [("name", .str m.name), ("recipe", m.recipe.toJson),
        ("nutrition", m.nutrition.toJson), ("dining_out", .bool m.dining_out)]

def PlanDay.toJson (d : PlanDay) : JsonVal :=
  .obj [("day", .num d.dayNum), ("breakfast", d.breakfast.toJson),
        ("lunch", d.lunch.toJson), ("dinner", d.dinner.toJson)]

/-- The `meal_plan` value stored for a list of well-formed days. -/
def planJson (days : List PlanDay) : JsonVal :=
  .obj [("days", .arr (days.map PlanDay.toJson))]

/-- The meal in a given slot of a well-formed day (meaningful for
`mt ∈ {"breakfast", "lunch", "dinner"}`). -/
def PlanDay.getMeal (d : PlanDay) (mt : String) : Meal :=
  if mt = "breakfast" then d.breakfast
  else if mt = "lunch" then d.lunch
  else d.dinner

/-! ## Spec-side definitions

These follow the wording of the spec (§4.3, §4.4 and §8); the claim theorems
relate them to the code models above. -/

/-- Spec-side (§4.4): what one meal contributes to the grocery list — its
recipe's ingredient strings, in order, unless it is flagged dining-out. -/
def Meal.contribution (m : Meal) : List String :=
  if m.dining_out then [] else m.recipe.ingredients

/-- Spec-side (§4.4): one day contributes its slots in the fixed order
breakfast, lunch, dinner. -/
def PlanDay.contribution (d : PlanDay) : List String :=
  d.breakfast.contribution ++ d.lunch.contribution ++ d.dinner.contribution

/-- Spec-side aggregate (§4.4): the concatenation of per-day contributions in
day order — duplicates preserved, no reordering. -/
def aggregateSpec (days : List PlanDay) : List String :=
  (days.map PlanDay.contribution).flatten

/-- Spec-side (§4.3): overwrite the dining-out flag of one slot of a day;
identity for an unknown meal type. -/
def setMealFlag (day : PlanDay) (mt : String) (v : Bool) : PlanDay :=
  if mt = "breakfast" then { day with breakfast := { day.breakfast with dining_out := v } }
  else if mt = "lunch" then { day with lunch := { day.lunch with dining_out := v } }
  else if mt = "dinner" then { day with dinner := { day.dinner with dining_out := v } }
  else day

/-- Spec-side (§4.3): update the first day whose number equals the requested
day, leaving all others alone. -/
def updateDaysSpec : List PlanDay → Int → String → Bool → List PlanDay
  | [], _, _, _ => []
  | day :: rest, d, mt, v =>
      if day.dayNum = d then setMealFlag day mt v :: rest
      else day :: updateDaysSpec rest d mt v

/-- Spec-side (C1/§8): a meal value with a non-empty name, a recipe with
non-empty ingredients and instructions, and all six nutrition fields. -/
def mealValid (m : JsonVal) : Bool :=
  match m with
  | .obj fields =>
      (match dictGet? fields "name" with
       | some (.str s) => !s.isEmpty
       | _ => false)
      &&
      (match dictGet? fields "recipe" with
       | some (.obj rcp) =>
           (match dictGet? rcp "ingredients" with
            | some (.arr xs) => !xs.isEmpty
            | _ => false)
           &&
           (match dictGet? rcp "instructions" with
            | some (.arr xs) => !xs.isEmpty
            | _ => false)
       | _ => false)
      &&
      (match dictGet? fields "nutrition" with
       | some (.obj nut) =>
           ["calories", "protein", "carbs", "fat", "fiber", "sugar"].all
             (fun k => (dictGet? nut k).isSome)
       | _ => false)
  | _ => false

/-- Spec-side (C1/§8): a day value carrying valid breakfast, lunch and dinner
meals. -/
def dayValid (day : JsonVal) : Bool :=
  match day with
  | .obj fields =>
      ["breakfast", "lunch", "dinner"].all (fun mt =>
        match dictGet? fields mt with
        | some m => mealValid m
        | none => false)
  | _ => false

/-- Spec-side (C1/§8): a plan value with exactly 7 valid days. -/
def planFullyValid (plan : JsonVal) : Bool :=
  match plan with
  | .obj fields =>
      match dictGet? fields "days" with
      | some (.arr ds) => ds.length = 7 && ds.all dayValid
      | _ => false
  | _ => false

/-- Spec-side (C8): the placeholder meal name of the fallback plan — the only
part of a fallback meal that depends on the day number. -/
def placeholderName (n : Nat) (mt : String) : String :=
  if mt = "breakfast" then "Day " ++ toString n ++ " Breakfast"
  else if mt = "lunch" then "Day " ++ toString n ++ " Lunch"
  else "Day " ++ toString n ++ " Dinner"

/-- Spec-side (C10): one slot of a day object is loosely well-shaped when the
slot, if present, is an object; its "recipe" value, if present, is an object;
and its "ingredients" value, if present, is a list.  (The dining_out value may
be anything: Python truthiness is total.) -/
def looseSlotOK (fields : List (String × JsonVal)) (mt : String) : Bool :=
  match dictGet? fields mt with
  | none => true
  | some (.obj mfs) =>
      (match dictGet? mfs "recipe" with
       | none => true
       | some (.obj rcp) =>
           (match dictGet? rcp "ingredients" with
            | none => true
            | some (.arr _) => true
            | some _ => false)
       | some _ => false)
  | some _ => false

/-- Spec-side (C10): a loosely well-shaped day: an object whose three meal
slots are loosely well-shaped. -/
def looseDayOK (day : JsonVal) : Bool :=
  match day with
  | .obj fields =>
      looseSlotOK fields "breakfast" && looseSlotOK fields "lunch"
        && looseSlotOK fields "dinner"
  | _ => false

/-- Spec-side (C10): the grocery contribution of one loosely-shaped slot —
nothing for a missing slot, recipe or ingredients list, and a missing
dining_out flag treated as false. -/
def looseMealSpec (fields : List (String × JsonVal)) (mt : String) : List JsonVal :=
  match dictGet? fields mt with
  | some (.obj mfs) =>
      if pyTruthy ((dictGet? mfs "dining_out").getD (.bool false)) then []
      else
        match (dictGet? mfs "recipe").getD (.obj []) with
        | .obj rcp =>
            (match (dictGet? rcp "ingredients").getD (.arr []) with
             | .arr xs => xs
             | _ => [])
        | _ => []
  | _ => []

/-- Spec-side (C10): the grocery contribution of one loosely-shaped day. -/
def looseDaySpec (day : JsonVal) : List JsonVal :=
  match day with
  | .obj fields =>
      looseMealSpec fields "breakfast" ++ looseMealSpec fields "lunch"
        ++ looseMealSpec fields "dinner"
  | _ => []

/-! ## Concrete values used by the witness theorems -/

/-- The fallback plan after caller-side `dining_out` injection. -/
def fallbackInjected : JsonVal :=
  (inject_dining_out fallbackMealPlan).toOption.getD .null

/-- The days list of `fallbackInjected`. -/
def fallbackInjectedDays : List JsonVal :=
  match pyGetItem fallbackInjected "days" with
  | .ok (.arr ds) => ds
  | _ => []

/-- The first day of `fallbackInjected`. -/
def fallbackInjectedFirstDay : JsonVal :=
  fallbackInjectedDays.head?.getD .null

/-- The breakfast meal of the first day of `fallbackInjected`. -/
def fallbackInjectedFirstBreakfast : JsonVal :=
  (pyGetItem fallbackInjectedFirstDay "breakfast").toOption.getD .null

/-- A stored plan document owned by user `alice`. -/
def docAlice : PlanDoc := ⟨"p1", "alice", planJson [], "2024-01-01T00:00:00"⟩

/-- A one-document store. -/
def storeAlice : Store := [docAlice]

/-- A small well-formed meal for concrete witnesses. -/
def sampleMeal (nm : String) (ings : List String) : Meal :=
  ⟨nm, ⟨ings, ["cook", "serve"]⟩, ⟨400, 20, 40, 10, 5, 6⟩, false⟩

def sampleDay1 : PlanDay :=
  ⟨1, sampleMeal "b1" ["oats", "milk"], sampleMeal "l1" ["rice"],
      sampleMeal "d1" ["fish", "oats"]⟩

def sampleDay2 : PlanDay :=
  ⟨2, sampleMeal "b2" ["eggs"], sampleMeal "l2" ["pasta", "tomato"],
      sampleMeal "d2" ["beef"]⟩

def sampleDay3 : PlanDay :=
  ⟨3, sampleMeal "b3" ["yogurt"], sampleMeal "l3" ["bread"],
      sampleMeal "d3" ["chicken", "salad"]⟩

def sampleDay4 : PlanDay :=
  ⟨4, sampleMeal "b4" ["toast"], sampleMeal "l4" ["soup"], sampleMeal "d4" ["tofu"]⟩

def sampleDay5 : PlanDay :=
  ⟨5, sampleMeal "b5" ["cereal"], sampleMeal "l5" ["wrap"], sampleMeal "d5" ["shrimp"]⟩

def sampleDay6 : PlanDay :=
  ⟨6, sampleMeal "b6" ["fruit"], sampleMeal "l6" ["quinoa"], sampleMeal "d6" ["pork"]⟩

def sampleDay7 : PlanDay :=
  ⟨7, sampleMeal "b7" ["pancake"], sampleMeal "l7" ["sushi"], sampleMeal "d7" ["lamb"]⟩

/-- A well-formed 7-day plan with distinct ingredient lists (one duplicate
string, "oats", across meals, to exhibit no-deduplication). -/
def sampleDays : List PlanDay :=
  [sampleDay1, sampleDay2, sampleDay3, sampleDay4, sampleDay5, sampleDay6, sampleDay7]

/-- A stored plan document holding `sampleDays`, owned by `carol`. -/
def docCarol : PlanDoc := ⟨"p2", "carol", planJson sampleDays, "2024-01-02T00:00:00"⟩

/-- `docCarol` after day 2's lunch is flagged as dining out. -/
def docCarolFlagged : PlanDoc :=
  ⟨"p2", "carol",
    planJson ([sampleDay1] ++ setMealFlag sampleDay2 "lunch" true ::
      [sampleDay3, sampleDay4, sampleDay5, sampleDay6, sampleDay7]),
    "2024-01-02T00:00:00"⟩

/-- A one-document store holding `docCarol`. -/
def storeCarol : Store := [docCarol]

/-- A degenerate stored days value: missing meal slots, a meal without a
recipe or dining_out flag, a recipe without an ingredients list, a dining-out
meal, and an entirely empty day object. -/
def quirkyDays : List JsonVal :=
  [.obj [("day", .num 1),
         ("breakfast", .obj [("name", .str "no recipe, no flag")]),
         ("lunch", .obj [("recipe", .obj []), ("dining_out", .bool false)]),
         ("dinner", .obj [("recipe", .obj [("ingredients", .arr [.str "rice", .str "oil"])])])],
   .obj [("day", .num 2),
         ("lunch", .obj [("recipe", .obj [("ingredients", .arr [.str "bread"])]),
                         ("dining_out", .bool true)])],
   .obj []]

/-- A stored plan document holding `quirkyDays`, owned by `dave`. -/
def docQuirky : PlanDoc := ⟨"p3", "dave", .obj [("days", .arr quirkyDays)], "2024-01-03T00:00:00"⟩

/-- A one-document store holding `docQuirky`. -/
def storeQuirky : Store := [docQuirky]

/-! ## Helper lemmas -/

theorem any_key_of_dictGet {fields : List (String × JsonVal)} {k : String} {v : JsonVal}
    (h : dictGet? fields k = some v) : fields.any (fun p => p.1 = k) = true := by
  unfold dictGet? at h
  cases hf : fields.find? (fun p => decide (p.1 = k)) with
  | none => rw [hf] at h; simp at h
  | some q =>
      have hmem := List.mem_of_find?_eq_some hf
      have hq := List.find?_some hf
      simp at hq
      exact List.any_eq_true.mpr ⟨q, hmem, by simpa using hq⟩

theorem pyContainsKey_of_getItem {v dv : JsonVal} {k : String}
    (h : pyGetItem v k = .ok dv) : pyContainsKey k v = .ok true := by
  cases v with
  | obj fields =>
      simp only [pyGetItem] at h
      simp only [pyContainsKey]
      cases hd : dictGet? fields k with
      | none => rw [hd] at h; simp at h
      | some q => rw [any_key_of_dictGet hd]
  | null => simp [pyGetItem] at h
  | bool b => simp [pyGetItem] at h
  | num n => simp [pyGetItem] at h
  | str s => simp [pyGetItem] at h
  | arr xs => simp [pyGetItem] at h

theorem validateParsed_ok {data p : JsonVal} (h : validateParsed data = .ok p) :
    p = data ∧ ∃ dv, pyGetItem data "days" = .ok dv ∧ pyLen dv = .ok 7 := by
  unfold validateParsed at h
  simp only [Bind.bind, Except.bind] at h
  split at h
  · simp at h
  · rename_i hasDays h1
    split at h
    · simp at h
    · split at h
      · simp at h
      · rename_i dv h2
        split at h
        · simp at h
        · rename_i n h3
          split at h
          · simp at h
          · rename_i h7
            simp only [Except.ok.injEq] at h
            subst h
            refine ⟨rfl, dv, h2, ?_⟩
            rw [h3]
            simp only [ne_eq, not_not] at h7
            rw [h7]

theorem validateParsed_noDays {v : JsonVal} (h : pyContainsKey "days" v = .ok false) :
    validateParsed v = .error .valueError := by
  unfold validateParsed
  simp only [Bind.bind, Except.bind]
  rw [h]
  simp

theorem validateParsed_badLen {v dv : JsonVal} {n : Nat}
    (h2 : pyGetItem v "days" = .ok dv) (h3 : pyLen dv = .ok n) (h7 : n ≠ 7) :
    validateParsed v = .error .valueError := by
  unfold validateParsed
  simp only [Bind.bind, Except.bind]
  rw [pyContainsKey_of_getItem h2]
  simp [h2, h3, h7]

/-! ## Claim theorems: the generator (C1, C2, C8) -/

/-- C1, counterexample: it is NOT the case that every plan returned by
`generate_meal_plan_with_ai` has breakfast/lunch/dinner slots with non-empty
name, ingredients, instructions and all six nutrition fields on all 7 days.  A
response parsing to `{"days": [{}, {}, {}, {}, {}, {}, {}]}` passes the code's
only structural checks (a "days" key and `len(days) == 7`, server.py 226-230)
and is returned as-is, with no meal slots at all. -/
theorem generate_validity_counterexample :
    ¬ (∀ (profile : JsonVal) (outcome : ParseOutcome) (plan : JsonVal),
        generate_meal_plan_with_ai profile outcome = .ok plan →
        planFullyValid plan = true) := by
  intro hclaim
  exact absurd
    (hclaim (.obj []) (.parsed (.obj [("days", .arr (List.replicate 7 (.obj [])))]))
      (.obj [("days", .arr (List.replicate 7 (.obj [])))]) (by decide))
    (by decide)

/-- C1, amended: whenever generation returns a plan, the plan's "days" value
has length 7; on the JSON-decode-failure path the returned plan is the fixed
fallback plan, which satisfies the full per-meal validity property.  A
successfully parsed response is returned without per-meal validation, so the
full property is not guaranteed on the AI-sourced path. -/
theorem generate_plan_shape :
    (∀ (profile : JsonVal) (outcome : ParseOutcome) (plan : JsonVal),
        generate_meal_plan_with_ai profile outcome = .ok plan →
        ∃ dv, pyGetItem plan "days" = .ok dv ∧ pyLen dv = .ok 7)
    ∧ (∀ profile : JsonVal,
        generate_meal_plan_with_ai profile .decodeError = .ok fallbackMealPlan)
    ∧ planFullyValid fallbackMealPlan = true := by
  refine ⟨?_, fun _ => rfl, by decide⟩
  intro profile outcome plan h
  cases outcome with
  | decodeError =>
      simp only [generate_meal_plan_with_ai, GenResult.ok.injEq] at h
      subst h
      exact ⟨_, rfl, by decide⟩
  | parsed data =>
      simp only [generate_meal_plan_with_ai] at h
      split at h
      · rename_i q hq
        simp only [GenResult.ok.injEq] at h
        subst h
        obtain ⟨hqd, dv, hget, hlen⟩ := validateParsed_ok hq
        rw [hqd]
        exact ⟨dv, hget, hlen⟩
      · simp at h

/-- Witness for the amended C1 at a concrete input. -/
theorem generate_plan_shape_spot :
    ∃ dv, pyGetItem fallbackMealPlan "days" = .ok dv ∧ pyLen dv = .ok 7 :=
  generate_plan_shape.1 (.obj []) .decodeError fallbackMealPlan rfl

/-- C2, counterexample: a structural validation failure is NOT converted into
the fallback plan.  For the parsed response `{}` (no "days" key) the code
raises a plain `ValueError` (server.py 227), which the inner
`except json.JSONDecodeError` does not catch; the outer `except Exception`
turns it into an HTTP 500 error (server.py 293-295). -/
theorem structural_failure_counterexample :
    ¬ (∀ (profile v : JsonVal), pyContainsKey "days" v = .ok false →
        generate_meal_plan_with_ai profile (.parsed v) = .ok fallbackMealPlan) := by
  intro hclaim
  exact absurd (hclaim (.obj []) (.obj []) rfl) (by decide)

/-- C2, amended: on JSON parse failure the generator returns the deterministic
fallback plan and propagates no error; but on structural validation failure
(missing "days" key, or a "days" value of length ≠ 7) the error IS propagated
to the caller as HTTP 500 instead of the fallback plan. -/
theorem generation_failure_handling :
    (∀ profile : JsonVal,
        generate_meal_plan_with_ai profile .decodeError = .ok fallbackMealPlan)
    ∧ (∀ profile v : JsonVal, pyContainsKey "days" v = .ok false →
        generate_meal_plan_with_ai profile (.parsed v) = .httpError 500)
    ∧ (∀ (profile v dv : JsonVal) (n : Nat),
        pyGetItem v "days" = .ok dv → pyLen dv = .ok n → n ≠ 7 →
        generate_meal_plan_with_ai profile (.parsed v) = .httpError 500) := by
  refine ⟨fun _ => rfl, ?_, ?_⟩
  · intro profile v h
    simp only [generate_meal_plan_with_ai]
    rw [validateParsed_noDays h]
  · intro profile v dv n h2 h3 h7
    simp only [generate_meal_plan_with_ai]
    rw [validateParsed_badLen h2 h3 h7]

/-- Witness for the amended C2 at a concrete input. -/
theorem generation_failure_handling_spot :
    generate_meal_plan_with_ai (.obj []) (.parsed (.obj [])) = .httpError 500 :=
  generation_failure_handling.2.1 (.obj []) (.obj []) rfl

/-- C8: the fallback plan is one fixed value, independent of the profile and of
the response text (every decode failure yields it); it has exactly 7 days whose
day numbers are 1..7 in order, and every day carries the same three placeholder
meals — same recipes and same nutrition on every day — differing only in the
day-number label inside each meal's name. -/
theorem fallback_plan_deterministic :
    (∀ profile : JsonVal,
        generate_meal_plan_with_ai profile .decodeError = .ok fallbackMealPlan)
    ∧ (∃ ds : List JsonVal,
        pyGetItem fallbackMealPlan "days" = .ok (.arr ds)
        ∧ ds.length = 7
        ∧ (∀ i (h : i < ds.length), ds.get ⟨i, h⟩ = fallbackDay (i + 1))
        ∧ (∀ i (h : i < ds.length),
            pyGetItem (ds.get ⟨i, h⟩) "day" = .ok (.num (i + 1))))
    ∧ (∀ (n n' : Nat) (mt : String),
        mt = "breakfast" ∨ mt = "lunch" ∨ mt = "dinner" →
        ∃ meal meal' : JsonVal,
          pyGetItem (fallbackDay n) mt = .ok meal
          ∧ pyGetItem (fallbackDay n') mt = .ok meal'
          ∧ pyGetItem meal "name" = .ok (.str (placeholderName n mt))
          ∧ pyGetItem meal "recipe" = pyGetItem meal' "recipe"
          ∧ pyGetItem meal "nutrition" = pyGetItem meal' "nutrition") := by
  refine ⟨fun _ => rfl, ⟨_, rfl, by decide, by decide, by decide⟩, ?_⟩
  intro n n' mt hmt
  rcases hmt with rfl | rfl | rfl
  · exact ⟨_, _, rfl, rfl, rfl, rfl, rfl⟩
  · exact ⟨_, _, rfl, rfl, rfl, rfl, rfl⟩
  · exact ⟨_, _, rfl, rfl, rfl, rfl, rfl⟩

/-! ## Dictionary and loop lemmas -/

theorem dictGet_cons {k' : String} {v' : JsonVal} {rest : List (String × JsonVal)} {k : String} :
    dictGet? ((k', v') :: rest) k = if k' = k then some v' else dictGet? rest k := by
  by_cases h : k' = k
  · simp [dictGet?, List.find?_cons_of_pos, h]
  · simp [dictGet?, List.find?_cons_of_neg, h]

theorem dictGet_nil (k : String) : dictGet? ([] : List (String × JsonVal)) k = none := rfl

theorem dictGet_dictSet_self :
    ∀ (fields : List (String × JsonVal)) (k : String) (v : JsonVal),
      dictGet? (dictSet fields k v) k = some v
  | [], k, v => by rw [dictSet, dictGet_cons, if_pos rfl]
  | (k', v') :: rest, k, v => by
      rw [dictSet]
      by_cases h : k' = k
      · rw [if_pos h, dictGet_cons, if_pos rfl]
      · rw [if_neg h, dictGet_cons, if_neg h, dictGet_dictSet_self rest k v]

theorem dictGet_dictSet_ne :
    ∀ (fields : List (String × JsonVal)) (k k' : String) (v : JsonVal), k' ≠ k →
      dictGet? (dictSet fields k v) k' = dictGet? fields k'
  | [], k, k', v, h => by
      rw [dictSet, dictGet_cons, if_neg (Ne.symm h)]
  | (a, b) :: rest, k, k', v, h => by
      rw [dictSet]
      by_cases ha : a = k
      · have ha' : a ≠ k' := by rw [ha]; exact Ne.symm h
        rw [if_pos ha, dictGet_cons, dictGet_cons, if_neg (Ne.symm h), if_neg ha']
      · rw [if_neg ha, dictGet_cons, dictGet_cons, dictGet_dictSet_ne rest k k' v h]

theorem mapME_mem {α β : Type} {f : α → Except PyErr β} :
    ∀ {xs : List α} {ys : List β}, mapME f xs = .ok ys → ∀ y ∈ ys, ∃ x ∈ xs, f x = .ok y := by
  intro xs
  induction xs with
  | nil =>
      intro ys h y hy
      simp only [mapME, Except.ok.injEq] at h
      subst h
      simp at hy
  | cons x xs ih =>
      intro ys h y hy
      simp only [mapME, Bind.bind, Except.bind] at h
      split at h
      · simp at h
      · rename_i b hb
        split at h
        · simp at h
        · rename_i bs hbs
          simp only [Except.ok.injEq] at h
          subst h
          rcases List.mem_cons.mp hy with rfl | hmem
          · exact ⟨x, List.mem_cons_self x xs, hb⟩
          · obtain ⟨x', hx', hfx'⟩ := ih hbs y hmem
            exact ⟨x', List.mem_cons_of_mem x hx', hfx'⟩

theorem mapME_map_ok {α β γ : Type} {g : α → β} {f : β → Except PyErr γ} {hh : α → γ}
    (hfg : ∀ x, f (g x) = .ok (hh x)) :
    ∀ xs : List α, mapME f (xs.map g) = .ok (xs.map hh)
  | [] => rfl
  | x :: xs => by
      simp only [List.map_cons, mapME, Bind.bind, Except.bind, hfg x, mapME_map_ok hfg xs]

/-! ## Injection lemmas -/

theorem pyGetItem_ok_obj {v m : JsonVal} {k : String} (h : pyGetItem v k = .ok m) :
    ∃ fields, v = .obj fields ∧ dictGet? fields k = some m := by
  cases v with
  | obj fields =>
      simp only [pyGetItem] at h
      cases hd : dictGet? fields k with
      | none => rw [hd] at h; simp at h
      | some q =>
          rw [hd] at h
          simp only [Except.ok.injEq] at h
          exact ⟨fields, rfl, h ▸ hd⟩
  | null => simp [pyGetItem] at h
  | bool b => simp [pyGetItem] at h
  | num n => simp [pyGetItem] at h
  | str s => simp [pyGetItem] at h
  | arr xs => simp [pyGetItem] at h

theorem pySetItem_ok {v w v' : JsonVal} {k : String} (h : pySetItem v k w = .ok v') :
    ∃ fields, v = .obj fields ∧ v' = .obj (dictSet fields k w) := by
  cases v with
  | obj fields =>
      simp only [pySetItem, Except.ok.injEq] at h
      exact ⟨fields, rfl, h.symm⟩
  | null => simp [pySetItem] at h
  | bool b => simp [pySetItem] at h
  | num n => simp [pySetItem] at h
  | str s => simp [pySetItem] at h
  | arr xs => simp [pySetItem] at h

theorem pyGetItem_err_of_not_contains {v : JsonVal} {k : String}
    (h : pyContainsKey k v = .ok false) : ∀ m, pyGetItem v k ≠ .ok m := by
  intro m hm
  obtain ⟨fields, rfl, hget⟩ := pyGetItem_ok_obj hm
  simp only [pyContainsKey, Except.ok.injEq] at h
  rw [any_key_of_dictGet hget] at h
  simp at h

theorem injectMeal_ok {day day' : JsonVal} {mt : String} (h : injectMeal day mt = .ok day') :
    (day' = day ∧ ∀ m, pyGetItem day mt ≠ .ok m)
    ∨ (∃ fields mfs, day = .obj fields ∧ dictGet? fields mt = some (.obj mfs)
        ∧ day' = .obj (dictSet fields mt (.obj (dictSet mfs "dining_out" (.bool false))))) := by
  unfold injectMeal at h
  simp only [Bind.bind, Except.bind] at h
  split at h
  · simp at h
  · rename_i present hpres
    split at h
    · -- present = true: the slot exists
      split at h
      · simp at h
      · rename_i meal hmeal
        split at h
        · simp at h
        · rename_i meal' hset1
          obtain ⟨mfs, rfl, rfl⟩ := pySetItem_ok hset1
          obtain ⟨fields, rfl, hget⟩ := pyGetItem_ok_obj hmeal
          obtain ⟨fields2, heq, rfl⟩ := pySetItem_ok h
          simp only [JsonVal.obj.injEq] at heq
          subst heq
          exact Or.inr ⟨fields, mfs, rfl, hget, rfl⟩
    · -- present = false: nothing is touched and the slot is unreadable
      rename_i hfalse
      simp only [Except.ok.injEq] at h
      subst h
      refine Or.inl ⟨rfl, pyGetItem_err_of_not_contains ?_⟩
      simp only [Bool.not_eq_true] at hfalse
      rw [hpres, hfalse]

theorem injectMeal_self {day day' : JsonVal} {mt : String} (h : injectMeal day mt = .ok day') :
    ∀ meal, pyGetItem day' mt = .ok meal →
      pyGetItem meal "dining_out" = .ok (.bool false) := by
  rcases injectMeal_ok h with ⟨rfl, hnone⟩ | ⟨fields, mfs, rfl, hget, rfl⟩
  · intro meal hm
    exact absurd hm (hnone meal)
  · intro meal hm
    simp only [pyGetItem, dictGet_dictSet_self] at hm
    simp only [Except.ok.injEq] at hm
    subst hm
    simp [pyGetItem, dictGet_dictSet_self]

theorem injectMeal_other {day day' : JsonVal} {mt mt' : String}
    (h : injectMeal day mt = .ok day') (hne : mt' ≠ mt) :
    pyGetItem day' mt' = pyGetItem day mt' := by
  rcases injectMeal_ok h with ⟨rfl, _⟩ | ⟨fields, mfs, rfl, hget, rfl⟩
  · rfl
  · simp only [pyGetItem]
    rw [dictGet_dictSet_ne _ _ _ _ hne]

theorem injectDay_flag {day day' : JsonVal} (h : injectDay day = .ok day') :
    ∀ mt, (mt = "breakfast" ∨ mt = "lunch" ∨ mt = "dinner") →
    ∀ meal, pyGetItem day' mt = .ok meal →
      pyGetItem meal "dining_out" = .ok (.bool false) := by
  unfold injectDay at h
  simp only [Bind.bind, Except.bind] at h
  split at h
  · simp at h
  · rename_i d1 h1
    split at h
    · simp at h
    · rename_i d2 h2
      intro mt hmt meal hm
      rcases hmt with rfl | rfl | rfl
      · rw [injectMeal_other h (by decide), injectMeal_other h2 (by decide)] at hm
        exact injectMeal_self h1 meal hm
      · rw [injectMeal_other h (by decide)] at hm
        exact injectMeal_self h2 meal hm
      · exact injectMeal_self h meal hm

theorem inject_dining_out_flags {v v' : JsonVal} (h : inject_dining_out v = .ok v') :
    ∀ days, pyGetItem v' "days" = .ok (.arr days) →
    ∀ day ∈ days, ∀ mt, (mt = "breakfast" ∨ mt = "lunch" ∨ mt = "dinner") →
    ∀ meal, pyGetItem day mt = .ok meal →
      pyGetItem meal "dining_out" = .ok (.bool false) := by
  unfold inject_dining_out at h
  split at h
  · rename_i fields
    split at h
    · -- "days" absent
      rename_i hnone
      simp only [Except.ok.injEq] at h
      subst h
      intro days hdays
      simp [pyGetItem, hnone] at hdays
    · -- "days" is a list
      rename_i ds hds
      simp only [Bind.bind, Except.bind] at h
      split at h
      · simp at h
      · rename_i ds' hds'
        simp only [Except.ok.injEq] at h
        subst h
        intro days hdays
        simp only [pyGetItem, dictGet_dictSet_self, Except.ok.injEq, JsonVal.arr.injEq] at hdays
        subst hdays
        intro day hday mt hmt meal hm
        obtain ⟨day0, _, hinj⟩ := mapME_mem hds' day hday
        exact injectDay_flag hinj mt hmt meal hm
    · -- "days" is a string: iteration touches fresh one-character strings
      rename_i s hstr
      simp only [Bind.bind, Except.bind] at h
      split at h
      · simp at h
      · simp only [Except.ok.injEq] at h
        subst h
        intro days hdays
        simp [pyGetItem, hstr] at hdays
    · -- "days" is a dict: iteration touches fresh key strings
      rename_i inner hinner
      simp only [Bind.bind, Except.bind] at h
      split at h
      · simp at h
      · simp only [Except.ok.injEq] at h
        subst h
        intro days hdays
        simp [pyGetItem, hinner] at hdays
    · simp at h
  · simp at h

/-! ## Claim theorems: persistence and isolation (C3, C5) -/

/-- C3: for any store in which every document carrying the looked-up plan id is
owned by `userA`, a lookup of that plan id on behalf of a different user
`userB` — exactly the scoped `find_one` used by the dining-status update and
the grocery-list endpoints — returns not-found, and both endpoints answer 404,
never `userA`'s plan. -/
theorem cross_user_isolation (store : Store) (pid userA userB : String)
    (hA : ∀ doc ∈ store, doc.meal_plan_id = pid → doc.user_id = userA)
    (hne : userB ≠ userA) :
    findPlanForUser store pid userB = none
    ∧ (∀ (d : Int) (mt : String) (v : Bool),
        update_meal_dining_status store pid userB d mt v = .notFound)
    ∧ get_grocery_list store pid userB = .notFound := by
  have hfind : findPlanForUser store pid userB = none := by
    apply List.find?_eq_none.mpr
    intro doc hmem
    simp only [Bool.and_eq_true, decide_eq_true_eq, not_and]
    intro hid
    rw [hA doc hmem hid]
    exact fun hcontra => hne hcontra.symm
  refine ⟨hfind, ?_, ?_⟩
  · intro d mt v
    simp [update_meal_dining_status, hfind]
  · simp [get_grocery_list, hfind]

/-- Witness for C3 at a concrete store: the plan `p1` belongs to `alice`, so
`bob`'s grocery-list request answers not-found. -/
theorem cross_user_isolation_spot :
    get_grocery_list storeAlice "p1" "bob" = .notFound :=
  (cross_user_isolation storeAlice "p1" "alice" "bob" (by decide) (by decide)).2.2

/-- C5: whenever the `generate_meal_plan` endpoint persists a document —
whether the generated data was AI-sourced or the fallback — every meal slot
present in the persisted plan carries `dining_out = false`, injected by the
caller before the insert. -/
theorem persisted_dining_out_false (profileVal : JsonVal) (outcome : ParseOutcome)
    (pid uid ts : String) (doc : PlanDoc)
    (h : generate_meal_plan profileVal outcome pid uid ts = .persisted doc) :
    ∀ days, pyGetItem doc.meal_plan "days" = .ok (.arr days) →
    ∀ day ∈ days, ∀ mt, (mt = "breakfast" ∨ mt = "lunch" ∨ mt = "dinner") →
    ∀ meal, pyGetItem day mt = .ok meal →
      pyGetItem meal "dining_out" = .ok (.bool false) := by
  unfold generate_meal_plan at h
  split at h
  · simp at h
  · split at h
    · simp at h
    · rename_i data hdata
      split at h
      · simp at h
      · rename_i data' hinj
        simp only [GenerateEndpointResult.persisted.injEq] at h
        subst h
        exact inject_dining_out_flags hinj

/-- Witness for C5: generating from a decode failure persists the injected
fallback plan, whose first breakfast indeed carries `dining_out = false`. -/
theorem persisted_dining_out_false_spot :
    pyGetItem fallbackInjectedFirstBreakfast "dining_out" = .ok (.bool false) :=
  persisted_dining_out_false (.obj [("age", .num 30)]) .decodeError "p1" "u1" "t1"
    ⟨"p1", "u1", fallbackInjected, "t1"⟩ (by decide)
    fallbackInjectedDays (by decide)
    fallbackInjectedFirstDay (by decide)
    "breakfast" (Or.inl rfl)
    fallbackInjectedFirstBreakfast (by decide)

/-- Witness for C8 at concrete inputs. -/
theorem fallback_plan_deterministic_spot :
    ∃ meal meal' : JsonVal,
      pyGetItem (fallbackDay 3) "lunch" = .ok meal
      ∧ pyGetItem (fallbackDay 5) "lunch" = .ok meal'
      ∧ pyGetItem meal "name" = .ok (.str (placeholderName 3 "lunch"))
      ∧ pyGetItem meal "recipe" = pyGetItem meal' "recipe"
      ∧ pyGetItem meal "nutrition" = pyGetItem meal' "nutrition" :=
  fallback_plan_deterministic.2.2 3 5 "lunch" (Or.inr (Or.inl rfl))

/-! ## Grocery-aggregation correspondence lemmas -/

theorem mealContribution_breakfast (day : PlanDay) :
    mealContribution day.toJson "breakfast" = .ok (day.breakfast.contribution.map .str) := by
  obtain ⟨dn, b, l, d⟩ := day
  obtain ⟨nm, r, nut, flag⟩ := b
  obtain ⟨ings, instrs⟩ := r
  cases flag <;> rfl

theorem mealContribution_lunch (day : PlanDay) :
    mealContribution day.toJson "lunch" = .ok (day.lunch.contribution.map .str) := by
  obtain ⟨dn, b, l, d⟩ := day
  obtain ⟨nm, r, nut, flag⟩ := l
  obtain ⟨ings, instrs⟩ := r
  cases flag <;> rfl

theorem mealContribution_dinner (day : PlanDay) :
    mealContribution day.toJson "dinner" = .ok (day.dinner.contribution.map .str) := by
  obtain ⟨dn, b, l, d⟩ := day
  obtain ⟨nm, r, nut, flag⟩ := d
  obtain ⟨ings, instrs⟩ := r
  cases flag <;> rfl

theorem dayContribution_toJson (day : PlanDay) :
    dayContribution day.toJson = .ok (day.contribution.map .str) := by
  simp only [dayContribution, Bind.bind, Except.bind, mealContribution_breakfast,
    mealContribution_lunch, mealContribution_dinner]
  simp [PlanDay.contribution]

theorem pyGetItem_planJson (days : List PlanDay) :
    pyGetItem (planJson days) "days" = .ok (.arr (days.map PlanDay.toJson)) := rfl

theorem grocery_of_planJson {store : Store} {pid uid : String} {doc : PlanDoc}
    {days : List PlanDay}
    (hfind : findPlanForUser store pid uid = some doc)
    (hplan : doc.meal_plan = planJson days) :
    get_grocery_list store pid uid = .ok ((aggregateSpec days).map .str) := by
  simp only [get_grocery_list, hfind, hplan, pyGetItem_planJson, pyIter]
  rw [mapME_map_ok dayContribution_toJson]
  simp only [aggregateSpec, List.map_flatten, List.map_map]
  rfl

/-! ## Update-loop lemmas -/

theorem pyGetItem_toJson_day (day : PlanDay) :
    pyGetItem day.toJson "day" = .ok (.num day.dayNum) := rfl

theorem updateDaysList_cons_match (day0 : PlanDay) (post : List JsonVal)
    (mt : String) (v : Bool) (d : Int)
    (hmt : mt = "breakfast" ∨ mt = "lunch" ∨ mt = "dinner") (hd : day0.dayNum = d) :
    updateDaysList (day0.toJson :: post) d mt v =
      .ok ((setMealFlag day0 mt v).toJson :: post) := by
  subst hd
  obtain ⟨dn, b, l, dnr⟩ := day0
  rcases hmt with rfl | rfl | rfl
  all_goals
    simp only [updateDaysList, Bind.bind, Except.bind, pyGetItem_toJson_day]
  all_goals
    rw [show pyEqInt (.num dn) dn = true from by simp [pyEqInt]]
  all_goals rfl

theorem updateDaysList_cons_nomatch (day : PlanDay) (rest rest' : List JsonVal)
    (d : Int) (mt : String) (v : Bool) (hd : day.dayNum ≠ d)
    (hrest : updateDaysList rest d mt v = .ok rest') :
    updateDaysList (day.toJson :: rest) d mt v = .ok (day.toJson :: rest') := by
  simp only [updateDaysList, Bind.bind, Except.bind, pyGetItem_toJson_day]
  rw [show pyEqInt (.num day.dayNum) d = false from by simp [pyEqInt, hd]]
  simp only [Bool.false_eq_true, if_false, hrest]

theorem updateDaysList_cons_nokey (day : PlanDay) (rest rest' : List JsonVal)
    (d : Int) (mt : String) (v : Bool)
    (h1 : mt ≠ "day") (h2 : mt ≠ "breakfast") (h3 : mt ≠ "lunch") (h4 : mt ≠ "dinner")
    (hrest : updateDaysList rest d mt v = .ok rest') :
    updateDaysList (day.toJson :: rest) d mt v = .ok (day.toJson :: rest') := by
  simp only [updateDaysList, Bind.bind, Except.bind, pyGetItem_toJson_day]
  by_cases hd : pyEqInt (.num day.dayNum) d = true
  · rw [hd]
    have hc : pyContainsKey mt day.toJson = .ok false := by
      simp [pyContainsKey, PlanDay.toJson, Ne.symm h1, Ne.symm h2, Ne.symm h3, Ne.symm h4]
    rw [hc]
    simp [hrest]
  · rw [Bool.not_eq_true] at hd
    rw [hd]
    simp only [Bool.false_eq_true, if_false, hrest]

theorem updateDaysList_split :
    ∀ (pre : List PlanDay) (day0 : PlanDay) (post : List PlanDay)
      (d : Int) (mt : String) (v : Bool),
      (∀ x ∈ pre, x.dayNum ≠ d) → day0.dayNum = d →
      (mt = "breakfast" ∨ mt = "lunch" ∨ mt = "dinner") →
      updateDaysList ((pre ++ day0 :: post).map PlanDay.toJson) d mt v =
        .ok ((pre ++ setMealFlag day0 mt v :: post).map PlanDay.toJson)
  | [], day0, post, d, mt, v, hpre, hd, hmt => by
      simpa using updateDaysList_cons_match day0 (post.map PlanDay.toJson) mt v d hmt hd
  | day :: pre, day0, post, d, mt, v, hpre, hd, hmt => by
      have hrec := updateDaysList_split pre day0 post d mt v
        (fun x hx => hpre x (List.mem_cons_of_mem day hx)) hd hmt
      simpa using updateDaysList_cons_nomatch day _ _ d mt v
        (hpre day (List.mem_cons_self day pre)) hrec

theorem updateDaysList_nomatch :
    ∀ (days : List PlanDay) (d : Int) (mt : String) (v : Bool),
      (∀ x ∈ days, x.dayNum ≠ d) →
      updateDaysList (days.map PlanDay.toJson) d mt v = .ok (days.map PlanDay.toJson)
  | [], _, _, _, _ => rfl
  | day :: rest, d, mt, v, h => by
      have hrec := updateDaysList_nomatch rest d mt v
        (fun x hx => h x (List.mem_cons_of_mem day hx))
      simpa using updateDaysList_cons_nomatch day _ _ d mt v
        (h day (List.mem_cons_self day rest)) hrec

theorem updateDaysList_nokey :
    ∀ (days : List PlanDay) (d : Int) (mt : String) (v : Bool),
      mt ≠ "day" → mt ≠ "breakfast" → mt ≠ "lunch" → mt ≠ "dinner" →
      updateDaysList (days.map PlanDay.toJson) d mt v = .ok (days.map PlanDay.toJson)
  | [], _, _, _, _, _, _, _ => rfl
  | day :: rest, d, mt, v, h1, h2, h3, h4 => by
      have hrec := updateDaysList_nokey rest d mt v h1 h2 h3 h4
      simpa using updateDaysList_cons_nokey day _ _ d mt v h1 h2 h3 h4 hrec

/-! ## Store lemmas -/

theorem find_store_split :
    ∀ (store : Store) (pid uid : String) (doc : PlanDoc),
      (∀ x ∈ store, x.meal_plan_id = pid → x.user_id = uid) →
      findPlanForUser store pid uid = some doc →
      ∃ s1 s2, store = s1 ++ doc :: s2
        ∧ (∀ x ∈ s1, x.meal_plan_id ≠ pid)
        ∧ doc.meal_plan_id = pid ∧ doc.user_id = uid
        ∧ ∀ dv, storeSetDays store pid dv = s1 ++ setDocDays doc dv :: s2
  | [], pid, uid, doc, hid, hfind => by simp [findPlanForUser] at hfind
  | x :: rest, pid, uid, doc, hid, hfind => by
      by_cases hx : x.meal_plan_id = pid
      · have hux : x.user_id = uid := hid x (List.mem_cons_self x rest) hx
        have hfx : findPlanForUser (x :: rest) pid uid = some x := by
          unfold findPlanForUser
          rw [List.find?_cons_of_pos]
          simp [hx, hux]
        rw [hfx] at hfind
        injection hfind with hdoc
        subst hdoc
        refine ⟨[], rest, by simp, by simp, hx, hux, fun dv => ?_⟩
        simp only [storeSetDays, if_pos hx, List.nil_append]
      · have hne : ¬(x.meal_plan_id = pid && x.user_id = uid) = true := by simp [hx]
        have hfr : findPlanForUser rest pid uid = some doc := by
          unfold findPlanForUser at hfind ⊢
          rwa [List.find?_cons_of_neg _ (by simpa using hne)] at hfind
        obtain ⟨s1, s2, hsplit, hs1, hdid, hduid, hset⟩ :=
          find_store_split rest pid uid doc
            (fun y hy => hid y (List.mem_cons_of_mem x hy)) hfr
        refine ⟨x :: s1, s2, by rw [hsplit]; rfl, ?_, hdid, hduid, fun dv => ?_⟩
        · intro y hy
          rcases List.mem_cons.mp hy with rfl | hmem
          · exact hx
          · exact hs1 y hmem
        · simp only [storeSetDays, if_neg hx, hset dv, List.cons_append]

theorem findPlan_append :
    ∀ (s1 s2 : Store) (pid uid : String) (doc : PlanDoc),
      (∀ x ∈ s1, x.meal_plan_id ≠ pid) →
      doc.meal_plan_id = pid → doc.user_id = uid →
      findPlanForUser (s1 ++ doc :: s2) pid uid = some doc
  | [], s2, pid, uid, doc, hs1, hdid, hduid => by
      unfold findPlanForUser
      rw [List.nil_append, List.find?_cons_of_pos]
      simp [hdid, hduid]
  | x :: rest, s2, pid, uid, doc, hs1, hdid, hduid => by
      unfold findPlanForUser
      rw [List.cons_append, List.find?_cons_of_neg]
      · exact findPlan_append rest s2 pid uid doc
          (fun y hy => hs1 y (List.mem_cons_of_mem x hy)) hdid hduid
      · simp [hs1 x (List.mem_cons_self x rest)]

theorem setDocDays_self {doc : PlanDoc} {days : List PlanDay}
    (hplan : doc.meal_plan = planJson days) :
    setDocDays doc (.arr (days.map PlanDay.toJson)) = doc := by
  obtain ⟨a, b, c, e⟩ := doc
  simp only at hplan
  subst hplan
  simp [setDocDays, planJson, dictSet]

theorem setDocDays_planJson {doc : PlanDoc} {days days' : List PlanDay}
    (hplan : doc.meal_plan = planJson days) :
    setDocDays doc (.arr (days'.map PlanDay.toJson)) =
      { doc with meal_plan := planJson days' } := by
  obtain ⟨a, b, c, e⟩ := doc
  simp only at hplan
  subst hplan
  simp [setDocDays, planJson, dictSet]

/-! ## Claim theorem: grocery aggregation (C4) -/

/-- C4: for a stored plan meeting the day-numbering invariant (days numbered
1..7 in storage order), the grocery list is exactly the concatenation of the
recipe ingredient lists of the meals whose dining-out flag is false, walking
days in day-ascending order and, within each day, breakfast then lunch then
dinner, each meal's ingredients kept in their original order and duplicates
preserved. -/
theorem grocery_aggregation_order (store : Store) (pid uid : String) (doc : PlanDoc)
    (days : List PlanDay)
    (hfind : findPlanForUser store pid uid = some doc)
    (hplan : doc.meal_plan = planJson days)
    (hnum : days.map PlanDay.dayNum = [1, 2, 3, 4, 5, 6, 7]) :
    get_grocery_list store pid uid = .ok ((aggregateSpec days).map .str)
    ∧ aggregateSpec days =
        (days.map (fun day =>
          (if day.breakfast.dining_out then [] else day.breakfast.recipe.ingredients)
          ++ (if day.lunch.dining_out then [] else day.lunch.recipe.ingredients)
          ++ (if day.dinner.dining_out then [] else day.dinner.recipe.ingredients))).flatten := by
  refine ⟨grocery_of_planJson hfind hplan, ?_⟩
  have hfun : PlanDay.contribution = (fun day : PlanDay =>
      (if day.breakfast.dining_out then [] else day.breakfast.recipe.ingredients)
      ++ (if day.lunch.dining_out then [] else day.lunch.recipe.ingredients)
      ++ (if day.dinner.dining_out then [] else day.dinner.recipe.ingredients)) := by
    funext day
    simp [PlanDay.contribution, Meal.contribution]
  rw [aggregateSpec, hfun]

/-- Witness for C4 on a concrete 7-day stored plan. -/
theorem grocery_aggregation_order_spot :
    get_grocery_list storeCarol "p2" "carol" = .ok ((aggregateSpec sampleDays).map .str)
    ∧ aggregateSpec sampleDays =
        (sampleDays.map (fun day =>
          (if day.breakfast.dining_out then [] else day.breakfast.recipe.ingredients)
          ++ (if day.lunch.dining_out then [] else day.lunch.recipe.ingredients)
          ++ (if day.dinner.dining_out then [] else day.dinner.recipe.ingredients))).flatten :=
  grocery_aggregation_order storeCarol "p2" "carol" docCarol sampleDays rfl rfl (by decide)

/-! ## Claim theorem: dining-status update result cases (C7) -/

/-- C7: the dining-status update answers not-found exactly when no stored plan
has the requested id and the requesting owner; and when the plan is found but
no day entry carries the requested day number — or the requested meal type is
not a key of any day (the code's own membership test) — the operation leaves
the store unchanged and still reports success. -/
theorem setDiningOut_notFound_and_noop (store : Store) (pid uid : String)
    (d : Int) (mt : String) (v : Bool) :
    (update_meal_dining_status store pid uid d mt v = .notFound ↔
      ∀ x ∈ store, ¬(x.meal_plan_id = pid ∧ x.user_id = uid))
    ∧ (∀ (doc : PlanDoc) (days : List PlanDay),
        (∀ x ∈ store, x.meal_plan_id = pid → x.user_id = uid) →
        findPlanForUser store pid uid = some doc →
        doc.meal_plan = planJson days →
        ((∀ x ∈ days, x.dayNum ≠ d) ∨
          (mt ≠ "day" ∧ mt ≠ "breakfast" ∧ mt ≠ "lunch" ∧ mt ≠ "dinner")) →
        update_meal_dining_status store pid uid d mt v = .success store) := by
  have hchar : (findPlanForUser store pid uid = none) ↔
      ∀ x ∈ store, ¬(x.meal_plan_id = pid ∧ x.user_id = uid) := by
    unfold findPlanForUser
    rw [List.find?_eq_none]
    simp
  constructor
  · cases hf : findPlanForUser store pid uid with
    | none =>
        refine ⟨fun _ => hchar.mp hf, fun _ => ?_⟩
        simp [update_meal_dining_status, hf]
    | some doc =>
        have hupd : update_meal_dining_status store pid uid d mt v ≠ .notFound := by
          intro hcontra
          simp only [update_meal_dining_status, hf] at hcontra
          split at hcontra
          · simp at hcontra
          · split at hcontra <;> simp at hcontra
          · split at hcontra <;> simp at hcontra
          · split at hcontra <;> simp at hcontra
          · simp at hcontra
        refine ⟨fun h => absurd h hupd, fun hall => ?_⟩
        rw [hchar.mpr hall] at hf
        simp at hf
  · intro doc days hid hfind hplan hmiss
    obtain ⟨s1, s2, hsplit, hs1, hdid, hduid, hset⟩ :=
      find_store_split store pid uid doc hid hfind
    have hloop : updateDaysList (days.map PlanDay.toJson) d mt v =
        .ok (days.map PlanDay.toJson) := by
      rcases hmiss with hnm | ⟨h1, h2, h3, h4⟩
      · exact updateDaysList_nomatch days d mt v hnm
      · exact updateDaysList_nokey days d mt v h1 h2 h3 h4
    simp only [update_meal_dining_status, hfind, hplan, pyGetItem_planJson, hloop]
    rw [hset, setDocDays_self hplan, ← hsplit]

/-- Witness for C7: asking for a day number (9) that no day of the stored
7-day plan carries leaves the store unchanged and reports success. -/
theorem setDiningOut_noop_spot :
    update_meal_dining_status storeCarol "p2" "carol" 9 "breakfast" true =
      .success storeCarol :=
  (setDiningOut_notFound_and_noop storeCarol "p2" "carol" 9 "breakfast" true).2
    docCarol sampleDays (by decide) rfl rfl (Or.inl (by decide))

/-! ## Loose-shape aggregation lemmas (C10) -/

theorem any_key_of_dictGet_none {fields : List (String × JsonVal)} {k : String}
    (h : dictGet? fields k = none) : fields.any (fun p => p.1 = k) = false := by
  unfold dictGet? at h
  cases hf : fields.find? (fun p => decide (p.1 = k)) with
  | some q => rw [hf] at h; simp at h
  | none =>
      have hall := List.find?_eq_none.mp hf
      exact List.any_eq_false.mpr (fun x hx => by simpa using hall x hx)

theorem mealContribution_loose {fields : List (String × JsonVal)} {mt : String}
    (h : looseSlotOK fields mt = true) :
    mealContribution (.obj fields) mt = .ok (looseMealSpec fields mt) := by
  unfold looseSlotOK at h
  split at h
  · rename_i hg
    have hc : pyContainsKey mt (.obj fields) = .ok false := by
      simp [pyContainsKey, any_key_of_dictGet_none hg]
    simp [mealContribution, looseMealSpec, Bind.bind, Except.bind, hc, hg]
  · rename_i mfs hg
    have hc : pyContainsKey mt (.obj fields) = .ok true := by
      simp [pyContainsKey, any_key_of_dictGet hg]
    have hgi : pyGetItem (.obj fields) mt = .ok (.obj mfs) := by simp [pyGetItem, hg]
    by_cases ht : pyTruthy ((dictGet? mfs "dining_out").getD (.bool false)) = true
    · simp [mealContribution, looseMealSpec, Bind.bind, Except.bind, hc, hgi, hg, pyGet, ht]
    · rw [Bool.not_eq_true] at ht
      split at h
      · rename_i hr
        simp [mealContribution, looseMealSpec, Bind.bind, Except.bind, hc, hgi, hg,
          pyGet, ht, hr, pyIter, dictGet_nil]
      · rename_i rcp hr
        split at h
        · rename_i hi
          simp [mealContribution, looseMealSpec, Bind.bind, Except.bind, hc, hgi, hg,
            pyGet, ht, hr, hi, pyIter]
        · rename_i xs hi
          simp [mealContribution, looseMealSpec, Bind.bind, Except.bind, hc, hgi, hg,
            pyGet, ht, hr, hi, pyIter]
        · simp at h
      · simp at h
  · simp at h

theorem dayContribution_loose {day : JsonVal} (h : looseDayOK day = true) :
    dayContribution day = .ok (looseDaySpec day) := by
  cases day with
  | obj fields =>
      simp only [looseDayOK, Bool.and_eq_true] at h
      obtain ⟨⟨hb, hl⟩, hd⟩ := h
      simp only [dayContribution, Bind.bind, Except.bind, mealContribution_loose hb,
        mealContribution_loose hl, mealContribution_loose hd, looseDaySpec]
  | null => simp [looseDayOK] at h
  | bool b => simp [looseDayOK] at h
  | num n => simp [looseDayOK] at h
  | str s => simp [looseDayOK] at h
  | arr xs => simp [looseDayOK] at h

theorem mapME_congr_ok {α β : Type} {f : α → Except PyErr β} {g : α → β} :
    ∀ (xs : List α), (∀ x ∈ xs, f x = .ok (g x)) → mapME f xs = .ok (xs.map g)
  | [], _ => rfl
  | x :: xs, h => by
      simp only [mapME, Bind.bind, Except.bind, h x (List.mem_cons_self x xs),
        mapME_congr_ok xs (fun y hy => h y (List.mem_cons_of_mem x hy)), List.map_cons]

/-! ## Claim theorem: aggregation totality on loose documents (C10) -/

/-- C10: once the plan lookup succeeds and the stored "days" value is a list
of loosely-shaped day objects (meal slots may be missing; a present slot is an
object that may lack a recipe, an ingredients list, or the dining_out flag),
the grocery endpoint returns an ingredient list without error: a missing slot,
recipe or ingredients list contributes nothing, and a missing dining_out flag
is treated as false. -/
theorem grocery_total_on_loose (store : Store) (pid uid : String) (doc : PlanDoc)
    (ds : List JsonVal)
    (hfind : findPlanForUser store pid uid = some doc)
    (hdays : pyGetItem doc.meal_plan "days" = .ok (.arr ds))
    (hok : ∀ day ∈ ds, looseDayOK day = true) :
    get_grocery_list store pid uid = .ok ((ds.map looseDaySpec).flatten) := by
  simp only [get_grocery_list, hfind, hdays, pyIter]
  rw [mapME_congr_ok ds (fun day hday => dayContribution_loose (hok day hday))]

/-- Witness for C10 on a degenerate stored plan (missing slots, missing
recipe, missing ingredients, missing flag, empty day). -/
theorem grocery_total_on_loose_spot :
    get_grocery_list storeQuirky "p3" "dave" = .ok ((quirkyDays.map looseDaySpec).flatten) :=
  grocery_total_on_loose storeQuirky "p3" "dave" docQuirky quirkyDays rfl rfl (by decide)

/-! ## setMealFlag lemmas (C6, C9) -/

theorem setMealFlag_dayNum (day : PlanDay) (mt : String) (v : Bool) :
    (setMealFlag day mt v).dayNum = day.dayNum := by
  unfold setMealFlag
  split
  · rfl
  · split
    · rfl
    · split
      · rfl
      · rfl

theorem getMeal_setMealFlag_self {day : PlanDay} {mt : String} (v : Bool)
    (hmt : mt = "breakfast" ∨ mt = "lunch" ∨ mt = "dinner") :
    (setMealFlag day mt v).getMeal mt = { day.getMeal mt with dining_out := v } := by
  rcases hmt with rfl | rfl | rfl <;> rfl

theorem getMeal_setMealFlag_other {day : PlanDay} {mt mt' : String} (v : Bool)
    (hmt : mt = "breakfast" ∨ mt = "lunch" ∨ mt = "dinner")
    (hmt' : mt' = "breakfast" ∨ mt' = "lunch" ∨ mt' = "dinner")
    (hne : mt' ≠ mt) :
    (setMealFlag day mt v).getMeal mt' = day.getMeal mt' := by
  rcases hmt with rfl | rfl | rfl <;> rcases hmt' with rfl | rfl | rfl <;>
    first
      | exact absurd rfl hne
      | rfl

theorem setMealFlag_restore {day : PlanDay} {mt : String}
    (hmt : mt = "breakfast" ∨ mt = "lunch" ∨ mt = "dinner")
    (hflag : (day.getMeal mt).dining_out = false) :
    setMealFlag (setMealFlag day mt true) mt false = day := by
  obtain ⟨dn, b, l, d⟩ := day
  rcases hmt with rfl | rfl | rfl
  · have hb : b.dining_out = false := hflag
    obtain ⟨nm, r, nut, flag⟩ := b
    simp only at hb
    subst hb
    rfl
  · have hl : l.dining_out = false := hflag
    obtain ⟨nm, r, nut, flag⟩ := l
    simp only at hl
    subst hl
    rfl
  · have hd : d.dining_out = false := hflag
    obtain ⟨nm, r, nut, flag⟩ := d
    simp only at hd
    subst hd
    rfl

theorem aggregateSpec_middle (pre : List PlanDay) (d : PlanDay) (post : List PlanDay) :
    aggregateSpec (pre ++ d :: post) =
      aggregateSpec pre ++ (d.contribution ++ aggregateSpec post) := by
  simp [aggregateSpec]

theorem storeSetDays_append :
    ∀ (s1 s2 : Store) (pid : String) (doc : PlanDoc) (dv : JsonVal),
      (∀ x ∈ s1, x.meal_plan_id ≠ pid) → doc.meal_plan_id = pid →
      storeSetDays (s1 ++ doc :: s2) pid dv = s1 ++ setDocDays doc dv :: s2
  | [], s2, pid, doc, dv, hs1, hdid => by
      simp [storeSetDays, hdid]
  | x :: rest, s2, pid, doc, dv, hs1, hdid => by
      have hx := hs1 x (List.mem_cons_self x rest)
      have hrec := storeSetDays_append rest s2 pid doc dv
        (fun y hy => hs1 y (List.mem_cons_of_mem x hy)) hdid
      simp only [List.cons_append, storeSetDays, if_neg hx, List.append_eq, hrec]

/-- A successful update on a store split around the (unique) document carrying
the plan id rewrites exactly that document's days, via `setMealFlag` on the
(unique) day carrying the requested day number. -/
theorem update_on_split {s1 s2 : Store} {pid uid : String} {doc : PlanDoc}
    {pre post : List PlanDay} {day0 : PlanDay} {dnum : Int} {mt : String} {v : Bool}
    (hs1 : ∀ x ∈ s1, x.meal_plan_id ≠ pid)
    (hdid : doc.meal_plan_id = pid) (hduid : doc.user_id = uid)
    (hplan : doc.meal_plan = planJson (pre ++ day0 :: post))
    (hmt : mt = "breakfast" ∨ mt = "lunch" ∨ mt = "dinner")
    (hpre : ∀ x ∈ pre, x.dayNum ≠ dnum)
    (hday : day0.dayNum = dnum) :
    update_meal_dining_status (s1 ++ doc :: s2) pid uid dnum mt v =
      .success (s1 ++
        { doc with meal_plan := planJson (pre ++ setMealFlag day0 mt v :: post) } :: s2) := by
  have hfind := findPlan_append s1 s2 pid uid doc hs1 hdid hduid
  have hloop := updateDaysList_split pre day0 post dnum mt v hpre hday hmt
  simp only [update_meal_dining_status, hfind, hplan, pyGetItem_planJson, hloop]
  rw [storeSetDays_append s1 s2 pid doc _ hs1 hdid, setDocDays_planJson hplan]

/-- `update_on_split` with the document given by its fields. -/
theorem update_on_split_mk (s1 s2 : Store) (pid uid ts : String) (mp : JsonVal)
    (pre post : List PlanDay) (day0 : PlanDay) (dnum : Int) (mt : String) (v : Bool)
    (hs1 : ∀ x ∈ s1, x.meal_plan_id ≠ pid)
    (hplan : mp = planJson (pre ++ day0 :: post))
    (hmt : mt = "breakfast" ∨ mt = "lunch" ∨ mt = "dinner")
    (hpre : ∀ x ∈ pre, x.dayNum ≠ dnum)
    (hday : day0.dayNum = dnum) :
    update_meal_dining_status (s1 ++ (⟨pid, uid, mp, ts⟩ : PlanDoc) :: s2) pid uid dnum mt v =
      .success (s1 ++
        (⟨pid, uid, planJson (pre ++ setMealFlag day0 mt v :: post), ts⟩ : PlanDoc) :: s2) := by
  subst hplan
  exact @update_on_split s1 s2 pid uid ⟨pid, uid, planJson (pre ++ day0 :: post), ts⟩
    pre post day0 dnum mt v hs1 rfl rfl rfl hmt hpre hday

/-! ## Claim theorem: frame of a dining-status update (C9) -/

/-- C9: a successful dining-status update on a well-formed stored plan changes
nothing but the targeted meal's dining_out flag: the other documents of the
store are untouched, the document keeps its plan id, owning user id and
creation timestamp, every other day is unchanged, the targeted day keeps its
day number and its other meals, and the targeted meal keeps its name, recipe
and nutrition, only its flag becoming `v`. -/
theorem setDiningOut_frame (store : Store) (pid uid : String) (dnum : Int)
    (mt : String) (v : Bool) (doc : PlanDoc) (pre post : List PlanDay) (day0 : PlanDay)
    (hid : ∀ x ∈ store, x.meal_plan_id = pid → x.user_id = uid)
    (hfind : findPlanForUser store pid uid = some doc)
    (hplan : doc.meal_plan = planJson (pre ++ day0 :: post))
    (hmt : mt = "breakfast" ∨ mt = "lunch" ∨ mt = "dinner")
    (hpre : ∀ x ∈ pre, x.dayNum ≠ dnum)
    (hday : day0.dayNum = dnum) :
    ∃ s1 s2, store = s1 ++ doc :: s2
      ∧ update_meal_dining_status store pid uid dnum mt v =
          .success (s1 ++
            { doc with meal_plan := planJson (pre ++ setMealFlag day0 mt v :: post) } :: s2)
      ∧ (setMealFlag day0 mt v).dayNum = day0.dayNum
      ∧ (setMealFlag day0 mt v).getMeal mt = { day0.getMeal mt with dining_out := v }
      ∧ (∀ mt', (mt' = "breakfast" ∨ mt' = "lunch" ∨ mt' = "dinner") → mt' ≠ mt →
          (setMealFlag day0 mt v).getMeal mt' = day0.getMeal mt') := by
  obtain ⟨s1, s2, hsplit, hs1, hdid, hduid, _⟩ :=
    find_store_split store pid uid doc hid hfind
  subst hsplit
  exact ⟨s1, s2, rfl, update_on_split hs1 hdid hduid hplan hmt hpre hday,
    setMealFlag_dayNum day0 mt v, getMeal_setMealFlag_self v hmt,
    fun mt' hmt' hne => getMeal_setMealFlag_other v hmt hmt' hne⟩

/-- Witness for C9 on a concrete store: flagging day 2's lunch. -/
theorem setDiningOut_frame_spot :
    ∃ s1 s2, storeCarol = s1 ++ docCarol :: s2
      ∧ update_meal_dining_status storeCarol "p2" "carol" 2 "lunch" true =
          .success (s1 ++ docCarolFlagged :: s2)
      ∧ (setMealFlag sampleDay2 "lunch" true).dayNum = sampleDay2.dayNum
      ∧ (setMealFlag sampleDay2 "lunch" true).getMeal "lunch" =
          { sampleDay2.getMeal "lunch" with dining_out := true }
      ∧ (∀ mt', (mt' = "breakfast" ∨ mt' = "lunch" ∨ mt' = "dinner") → mt' ≠ "lunch" →
          (setMealFlag sampleDay2 "lunch" true).getMeal mt' = sampleDay2.getMeal mt') :=
  setDiningOut_frame storeCarol "p2" "carol" 2 "lunch" true docCarol
    [sampleDay1] [sampleDay3, sampleDay4, sampleDay5, sampleDay6, sampleDay7] sampleDay2
    (by decide) rfl (by decide) (Or.inr (Or.inl rfl)) (by decide) (by decide)

/-! ## Claim theorem: dining-out round trip (C6) -/

/-- C6: on a well-formed stored plan whose targeted meal is not yet flagged,
flagging it as dining-out removes exactly that meal's ingredients from the
grocery list (the prefix `P` and suffix `S` around them are unchanged), and
un-flagging it restores the store — and hence the grocery list — exactly. -/
theorem dining_out_roundtrip (store : Store) (pid uid : String) (dnum : Int)
    (mt : String) (doc : PlanDoc) (pre post : List PlanDay) (day0 : PlanDay)
    (hid : ∀ x ∈ store, x.meal_plan_id = pid → x.user_id = uid)
    (hfind : findPlanForUser store pid uid = some doc)
    (hplan : doc.meal_plan = planJson (pre ++ day0 :: post))
    (hmt : mt = "breakfast" ∨ mt = "lunch" ∨ mt = "dinner")
    (hpre : ∀ x ∈ pre, x.dayNum ≠ dnum)
    (hday : day0.dayNum = dnum)
    (hflag : (day0.getMeal mt).dining_out = false) :
    ∃ (store1 store2 : Store) (P S : List String),
      get_grocery_list store pid uid =
        .ok ((P ++ (day0.getMeal mt).recipe.ingredients ++ S).map .str)
      ∧ update_meal_dining_status store pid uid dnum mt true = .success store1
      ∧ get_grocery_list store1 pid uid = .ok ((P ++ S).map .str)
      ∧ update_meal_dining_status store1 pid uid dnum mt false = .success store2
      ∧ store2 = store
      ∧ get_grocery_list store2 pid uid = get_grocery_list store pid uid := by
  obtain ⟨s1, s2, hsplit, hs1, hdid, hduid, _⟩ :=
    find_store_split store pid uid doc hid hfind
  obtain ⟨a, b, c, e⟩ := doc
  have ha : pid = a := Eq.symm hdid
  have hb : uid = b := Eq.symm hduid
  have hc : c = planJson (pre ++ day0 :: post) := hplan
  subst ha hb hc hsplit
  have hfind0 : findPlanForUser
      (s1 ++ (⟨pid, uid, planJson (pre ++ day0 :: post), e⟩ : PlanDoc) :: s2) pid uid =
      some ⟨pid, uid, planJson (pre ++ day0 :: post), e⟩ :=
    findPlan_append s1 s2 pid uid _ hs1 rfl rfl
  have hg0 := grocery_of_planJson hfind0 rfl
  have hupd1 := update_on_split_mk s1 s2 pid uid e _ pre post day0 dnum mt true
    hs1 rfl hmt hpre hday
  have hfind1 : findPlanForUser
      (s1 ++ (⟨pid, uid, planJson (pre ++ setMealFlag day0 mt true :: post), e⟩ : PlanDoc)
        :: s2) pid uid =
      some ⟨pid, uid, planJson (pre ++ setMealFlag day0 mt true :: post), e⟩ :=
    findPlan_append s1 s2 pid uid _ hs1 rfl rfl
  have hg1 := grocery_of_planJson hfind1 rfl
  have hday1 : (setMealFlag day0 mt true).dayNum = dnum := by
    rw [setMealFlag_dayNum]
    exact hday
  have hupd2 := update_on_split_mk s1 s2 pid uid e _ pre post (setMealFlag day0 mt true)
    dnum mt false hs1 rfl hmt hpre hday1
  rw [setMealFlag_restore hmt hflag] at hupd2
  rcases hmt with rfl | rfl | rfl
  · have hbflag : day0.breakfast.dining_out = false := hflag
    refine ⟨_, _, aggregateSpec pre,
      day0.lunch.contribution ++ day0.dinner.contribution ++ aggregateSpec post,
      ?_, hupd1, ?_, hupd2, rfl, rfl⟩
    · rw [hg0]
      have heq : aggregateSpec (pre ++ day0 :: post) =
          aggregateSpec pre ++ (day0.getMeal "breakfast").recipe.ingredients
            ++ (day0.lunch.contribution ++ day0.dinner.contribution ++ aggregateSpec post) := by
        rw [aggregateSpec_middle]
        simp [PlanDay.contribution, Meal.contribution, PlanDay.getMeal, hbflag]
      rw [heq]
    · rw [hg1]
      have heq : aggregateSpec (pre ++ setMealFlag day0 "breakfast" true :: post) =
          aggregateSpec pre ++
            (day0.lunch.contribution ++ day0.dinner.contribution ++ aggregateSpec post) := by
        rw [aggregateSpec_middle]
        simp [PlanDay.contribution, Meal.contribution, setMealFlag]
      rw [heq]
  · have hlflag : day0.lunch.dining_out = false := hflag
    refine ⟨_, _, aggregateSpec pre ++ day0.breakfast.contribution,
      day0.dinner.contribution ++ aggregateSpec post,
      ?_, hupd1, ?_, hupd2, rfl, rfl⟩
    · rw [hg0]
      have heq : aggregateSpec (pre ++ day0 :: post) =
          (aggregateSpec pre ++ day0.breakfast.contribution)
            ++ (day0.getMeal "lunch").recipe.ingredients
            ++ (day0.dinner.contribution ++ aggregateSpec post) := by
        rw [aggregateSpec_middle]
        simp [PlanDay.contribution, Meal.contribution, PlanDay.getMeal, hlflag]
      rw [heq]
    · rw [hg1]
      have heq : aggregateSpec (pre ++ setMealFlag day0 "lunch" true :: post) =
          (aggregateSpec pre ++ day0.breakfast.contribution)
            ++ (day0.dinner.contribution ++ aggregateSpec post) := by
        rw [aggregateSpec_middle]
        simp [PlanDay.contribution, Meal.contribution, setMealFlag]
      rw [heq]
  · have hdflag : day0.dinner.dining_out = false := hflag
    refine ⟨_, _, aggregateSpec pre ++ day0.breakfast.contribution ++ day0.lunch.contribution,
      aggregateSpec post,
      ?_, hupd1, ?_, hupd2, rfl, rfl⟩
    · rw [hg0]
      have heq : aggregateSpec (pre ++ day0 :: post) =
          (aggregateSpec pre ++ day0.breakfast.contribution ++ day0.lunch.contribution)
            ++ (day0.getMeal "dinner").recipe.ingredients ++ aggregateSpec post := by
        rw [aggregateSpec_middle]
        simp [PlanDay.contribution, Meal.contribution, PlanDay.getMeal, hdflag]
      rw [heq]
    · rw [hg1]
      have heq : aggregateSpec (pre ++ setMealFlag day0 "dinner" true :: post) =
          (aggregateSpec pre ++ day0.breakfast.contribution ++ day0.lunch.contribution)
            ++ aggregateSpec post := by
        rw [aggregateSpec_middle]
        simp [PlanDay.contribution, Meal.contribution, setMealFlag]
      rw [heq]

/-- Witness for C6 on a concrete store: flagging and un-flagging day 2's
lunch of the stored sample plan. -/
theorem dining_out_roundtrip_spot :
    ∃ (store1 store2 : Store) (P S : List String),
      get_grocery_list storeCarol "p2" "carol" =
        .ok ((P ++ (sampleDay2.getMeal "lunch").recipe.ingredients ++ S).map .str)
      ∧ update_meal_dining_status storeCarol "p2" "carol" 2 "lunch" true = .success store1
      ∧ get_grocery_list store1 "p2" "carol" = .ok ((P ++ S).map .str)
      ∧ update_meal_dining_status store1 "p2" "carol" 2 "lunch" false = .success store2
      ∧ store2 = storeCarol
      ∧ get_grocery_list store2 "p2" "carol" = get_grocery_list storeCarol "p2" "carol" :=
  dining_out_roundtrip storeCarol "p2" "carol" 2 "lunch" docCarol
    [sampleDay1] [sampleDay3, sampleDay4, sampleDay5, sampleDay6, sampleDay7] sampleDay2
    (by decide) rfl rfl (Or.inr (Or.inl rfl)) (by decide) (by decide) (by decide)

end NutriPlan
